import Mathlib

/-!
Verification of `src/apps/mofa-fm/src/system_monitor.rs`.

The Rust module keeps a process-wide singleton `SYSTEM_MONITOR :
OnceLock<Arc<SystemStats>>` holding two `AtomicU32` gauges
(`cpu_usage`, `memory_usage`), each scaled to 0–10000.
`start_system_monitor()` initialises the singleton at most once and
spawns one background thread whose loop body reads the OS probe and
stores fresh gauge values; `get_cpu_usage()` / `get_memory_usage()`
read the gauges (or report 0.0 when the singleton is unset) and divide
by 10000.

Embedding choices:
* Rust floats (`f32` for the probe CPU percentage, `f64` for the
  memory ratio) are modelled as exact rationals, with an explicit NaN
  constructor so that the NaN branch of the saturating `as u32` cast is
  representable.
* The `OnceLock` singleton and the count of spawned background threads
  become an explicit `MonitorWorld` record threaded through every
  operation; `get_or_init` and `get` are translated branch by branch.
* One iteration of the background loop becomes a pure function of the
  probe reading, since the loop body overwrites both gauges with
  `store` and never reads them.
* Whole executions are lists of events (a `start` call or one loop
  iteration with a given probe reading) folded over the world.
-/

namespace SystemMonitor

/-- A Rust floating-point value as it reaches the monitor: NaN, or a
finite value modelled as an exact rational. -/
inductive FVal where
  | nan : FVal
  | fin : ℚ → FVal
deriving DecidableEq

/-- The constant `u32::MAX`, the saturation bound of the Rust float-to-`u32` cast. -/
def U32_MAX : ℕ := 4294967295

/-- The Rust `as u32` cast from a float: NaN goes to 0, the value is
truncated toward zero, and the result saturates at 0 below and
`u32::MAX` above (source lines 51 and 58 use this cast). -/
def castU32 : FVal → ℕ
  | .nan => 0
  | .fin q => if q < 0 then 0 else min ⌊q⌋.toNat U32_MAX

/-- The scaling `cpu * 100.0` (source line 51), lifted over NaN. -/
def FVal.mul100 : FVal → FVal
  | .nan => .nan
  | .fin q => .fin (q * 100)

/-- The shared gauge record (`struct SystemStats`, source lines 13–18):
two `AtomicU32` values, each meant to represent 0.00%–100.00% as
0–10000. -/
structure SystemStats where
  cpu_usage : ℕ
  memory_usage : ℕ
deriving DecidableEq

/-- Constructor `SystemStats::new()` (source lines 21–26): both gauges start at 0. -/
def SystemStats.new : SystemStats := ⟨0, 0⟩

/-- One reading delivered by the OS metrics probe (`sysinfo`):
`global_cpu_usage()` (an `f32`), `total_memory()` and `used_memory()`
(both `u64` byte counts). -/
structure ProbeReading where
  cpu : FVal
  total_memory : ℕ
  used_memory : ℕ
deriving DecidableEq

/-- One iteration of the background loop body (source lines 44–66):
scale the CPU percentage by 100 and cast to `u32`; compute
`used / total * 10000` as `f64` and cast to `u32` when `total > 0`,
else publish 0. Both stores overwrite the previous gauge values. -/
def loopIteration (r : ProbeReading) : SystemStats :=
  let cpu_scaled := castU32 r.cpu.mul100
  let memory_pct :=
    if r.total_memory > 0 then
      castU32 (.fin ((r.used_memory : ℚ) / (r.total_memory : ℚ) * 10000))
    else 0
  ⟨cpu_scaled, memory_pct⟩

/-- The process-wide state: the `OnceLock` singleton (`none` while it
was never initialised) together with the number of background threads
spawned so far, which the code never stores but which the claims
observe. -/
structure MonitorWorld where
  monitor : Option SystemStats
  spawned : ℕ
deriving DecidableEq

/-- The state at process startup: `OnceLock::new()` is unset and no
thread has been spawned. -/
def initWorld : MonitorWorld := ⟨none, 0⟩

/-- Function `start_system_monitor()` (source lines 34–72):
`SYSTEM_MONITOR.get_or_init(...)` runs the closure - constructing the
gauges via `SystemStats::new()` and spawning the background thread -
exactly when the singleton is still unset, and otherwise does
nothing. -/
def start_system_monitor (w : MonitorWorld) : MonitorWorld :=
  match w.monitor with
  | some _ => w
  | none => ⟨some SystemStats.new, w.spawned + 1⟩

/-- Function `get_cpu_usage()` (source lines 75–80) with its state effect made
explicit: `SYSTEM_MONITOR.get()` reads the singleton without
initialising it, the atomic load does not mutate the gauge, and an
unset singleton maps to `0.0`. -/
def get_cpu_usageS (w : MonitorWorld) : ℚ × MonitorWorld :=
  match w.monitor with
  | some s => ((s.cpu_usage : ℚ) / 10000, w)
  | none => (0, w)

/-- Function `get_memory_usage()` (source lines 83–88), same shape as
`get_cpu_usageS`. -/
def get_memory_usageS (w : MonitorWorld) : ℚ × MonitorWorld :=
  match w.monitor with
  | some s => ((s.memory_usage : ℚ) / 10000, w)
  | none => (0, w)

/-- The value returned by `get_cpu_usage()`. -/
def get_cpu_usage (w : MonitorWorld) : ℚ := (get_cpu_usageS w).1

/-- The value returned by `get_memory_usage()`. -/
def get_memory_usage (w : MonitorWorld) : ℚ := (get_memory_usageS w).1

/-- An observable step of the monitor: a call to
`start_system_monitor()`, or one iteration of the background loop fed
by a probe reading. -/
inductive Event where
  | start : Event
  | tick : ProbeReading → Event
deriving DecidableEq

/-- Effect of one event on the world. A loop iteration can only happen
once the singleton exists, because only `start_system_monitor` spawns
the thread that runs the loop. -/
def stepE (w : MonitorWorld) : Event → MonitorWorld
  | .start => start_system_monitor w
  | .tick r =>
    match w.monitor with
    | some _ => ⟨some (loopIteration r), w.spawned⟩
    | none => w

/-- Run a sequence of events from process startup. -/
def run (evs : List Event) : MonitorWorld := evs.foldl stepE initWorld

/-- A probe reading within the documented contract of the probe: the CPU
percentage, when finite, lies in [0, 100], and used memory does not
exceed total memory. -/
def ValidReading (r : ProbeReading) : Prop :=
  (match r.cpu with
   | .nan => True
   | .fin q => 0 ≤ q ∧ q ≤ 100) ∧
  r.used_memory ≤ r.total_memory

/-- An event whose probe reading (if any) is within the contract
of the probe. -/
def ValidEvent : Event → Prop
  | .start => True
  | .tick r => ValidReading r

/-- Both gauges of an initialised monitor are within [0, 10000]. -/
def GaugesOK (w : MonitorWorld) : Prop :=
  ∀ s, w.monitor = some s → s.cpu_usage ≤ 10000 ∧ s.memory_usage ≤ 10000

/-! ### Helper lemmas -/

theorem castU32_le_max (v : FVal) : castU32 v ≤ U32_MAX := by
  cases v with
  | nan => exact Nat.zero_le _
  | fin q =>
    simp only [castU32]
    split
    · exact Nat.zero_le _
    · exact min_le_right _ _

theorem castU32_fin_eq_floor (q : ℚ) (h0 : 0 ≤ q) (h1 : q ≤ (U32_MAX : ℚ)) :
    castU32 (.fin q) = ⌊q⌋.toNat := by
  have hfl : ⌊q⌋ ≤ (U32_MAX : ℤ) := by
    have h := Int.floor_le_floor h1
    rwa [Int.floor_natCast] at h
  have hle : ⌊q⌋.toNat ≤ U32_MAX := Int.toNat_le.mpr hfl
  simp [castU32, not_lt.mpr h0, Nat.min_eq_left hle]

theorem castU32_fin_le (q : ℚ) (b : ℕ) (h1 : q ≤ (b : ℚ)) :
    castU32 (.fin q) ≤ b := by
  simp only [castU32]
  split
  · exact Nat.zero_le _
  · refine le_trans (min_le_left _ _) ?_
    have h := Int.floor_le_floor h1
    rw [Int.floor_natCast] at h
    exact Int.toNat_le.mpr h

theorem castU32_natLit (m : ℕ) (h : m ≤ U32_MAX) :
    castU32 (.fin ((m : ℕ) : ℚ)) = m := by
  rw [castU32_fin_eq_floor _ (by positivity) (by exact_mod_cast h),
    Int.floor_natCast, Int.toNat_natCast]

theorem castU32_natLit_sat (m : ℕ) (h : U32_MAX ≤ m) :
    castU32 (.fin ((m : ℕ) : ℚ)) = U32_MAX := by
  have h0 : ¬ ((m : ℕ) : ℚ) < 0 := not_lt.mpr (by positivity)
  simp only [castU32, h0, if_false, Int.floor_natCast, Int.toNat_natCast]
  exact Nat.min_eq_right h

theorem get_cpu_usage_some (s : SystemStats) (n : ℕ) :
    get_cpu_usage ⟨some s, n⟩ = (s.cpu_usage : ℚ) / 10000 := rfl

theorem get_memory_usage_some (s : SystemStats) (n : ℕ) :
    get_memory_usage ⟨some s, n⟩ = (s.memory_usage : ℚ) / 10000 := rfl

theorem loopIteration_cpu (r : ProbeReading) :
    (loopIteration r).cpu_usage = castU32 r.cpu.mul100 := rfl

theorem loopIteration_memory (r : ProbeReading) :
    (loopIteration r).memory_usage =
      if r.total_memory > 0 then
        castU32 (.fin ((r.used_memory : ℚ) / (r.total_memory : ℚ) * 10000))
      else 0 := rfl

theorem loopIteration_bounds (r : ProbeReading) (h : ValidReading r) :
    (loopIteration r).cpu_usage ≤ 10000 ∧ (loopIteration r).memory_usage ≤ 10000 := by
  obtain ⟨hcpu, hmem⟩ := h
  constructor
  · rw [loopIteration_cpu]
    cases hc : r.cpu with
    | nan => simp [FVal.mul100, castU32]
    | fin q =>
      rw [hc] at hcpu
      obtain ⟨hq0, hq1⟩ := hcpu
      simp only [FVal.mul100]
      refine castU32_fin_le _ 10000 ?_
      calc q * 100 ≤ 100 * 100 := by nlinarith
        _ = ((10000 : ℕ) : ℚ) := by norm_num
  · rw [loopIteration_memory]
    split
    · refine castU32_fin_le _ 10000 ?_
      have ht : (0 : ℚ) < (r.total_memory : ℚ) := by
        exact_mod_cast Nat.pos_of_ne_zero (by omega)
      have hratio : (r.used_memory : ℚ) / (r.total_memory : ℚ) ≤ 1 :=
        (div_le_one ht).mpr (by exact_mod_cast hmem)
      calc (r.used_memory : ℚ) / (r.total_memory : ℚ) * 10000
          ≤ 1 * 10000 := by nlinarith
        _ = ((10000 : ℕ) : ℚ) := by norm_num
    · exact Nat.zero_le _

theorem stepE_preserves (w : MonitorWorld) (e : Event) (hv : ValidEvent e)
    (hw : GaugesOK w) : GaugesOK (stepE w e) := by
  cases e with
  | start =>
    intro s hs
    simp only [stepE, start_system_monitor] at hs
    cases hm : w.monitor with
    | some s₀ =>
      rw [hm] at hs
      simp only [] at hs
      exact hw s hs
    | none =>
      rw [hm] at hs
      simp at hs
      subst hs
      simp [SystemStats.new]
  | tick r =>
    intro s hs
    simp only [stepE] at hs
    cases hm : w.monitor with
    | some s₀ =>
      rw [hm] at hs
      simp at hs
      subst hs
      exact loopIteration_bounds r hv
    | none =>
      rw [hm] at hs
      exact hw s hs

theorem foldl_preserves (evs : List Event) (w : MonitorWorld)
    (hv : ∀ e ∈ evs, ValidEvent e) (hw : GaugesOK w) :
    GaugesOK (evs.foldl stepE w) := by
  induction evs generalizing w with
  | nil => exact hw
  | cons e rest ih =>
    exact ih _ (fun e' he' => hv e' (List.mem_cons_of_mem _ he'))
      (stepE_preserves w e (hv e (List.mem_cons_self _ _)) hw)

theorem get_cpu_usage_of_ok (w : MonitorWorld) (hw : GaugesOK w) :
    0 ≤ get_cpu_usage w ∧ get_cpu_usage w ≤ 1 := by
  unfold get_cpu_usage get_cpu_usageS
  cases hm : w.monitor with
  | none => norm_num
  | some s =>
    have hb := (hw s hm).1
    constructor
    · positivity
    · rw [div_le_one (by norm_num)]
      exact_mod_cast le_trans (Nat.cast_le.mpr hb) (by norm_num)

theorem get_memory_usage_of_ok (w : MonitorWorld) (hw : GaugesOK w) :
    0 ≤ get_memory_usage w ∧ get_memory_usage w ≤ 1 := by
  unfold get_memory_usage get_memory_usageS
  cases hm : w.monitor with
  | none => norm_num
  | some s =>
    have hb := (hw s hm).2
    constructor
    · positivity
    · rw [div_le_one (by norm_num)]
      exact_mod_cast le_trans (Nat.cast_le.mpr hb) (by norm_num)

/-! ### Claim theorems -/

/-- C5: `get_cpu_usage()` and `get_memory_usage()` are total functions
that never fail and never propagate an error — on every world they
return a rational value and leave the world as it was — and when called
before `start_system_monitor()` has ever been invoked (the singleton is
unset) both return exactly 0.0. -/
theorem c5_getters_total_and_prestart_zero :
    (∀ w : MonitorWorld, ∃ q : ℚ, get_cpu_usageS w = (q, w)) ∧
    (∀ w : MonitorWorld, ∃ q : ℚ, get_memory_usageS w = (q, w)) ∧
    (∀ n : ℕ, get_cpu_usage ⟨none, n⟩ = 0 ∧ get_memory_usage ⟨none, n⟩ = 0) := by
  refine ⟨fun w => ?_, fun w => ?_, fun n => ⟨rfl, rfl⟩⟩
  · cases hm : w.monitor with
    | none => exact ⟨0, by simp [get_cpu_usageS, hm]⟩
    | some s => exact ⟨(s.cpu_usage : ℚ) / 10000, by simp [get_cpu_usageS, hm]⟩
  · cases hm : w.monitor with
    | none => exact ⟨0, by simp [get_memory_usageS, hm]⟩
    | some s => exact ⟨(s.memory_usage : ℚ) / 10000, by simp [get_memory_usageS, hm]⟩

/-- C6: for every probe reading with total memory 0 and any used-memory
value, one loop iteration publishes a memory gauge of 0, so
`get_memory_usage()` returns exactly 0.0 afterwards; the loop does not
fail in this case. -/
theorem c6_zero_total_memory (c : FVal) (u n : ℕ) :
    (loopIteration ⟨c, 0, u⟩).memory_usage = 0 ∧
    get_memory_usage ⟨some (loopIteration ⟨c, 0, u⟩), n⟩ = 0 := by
  constructor
  · rfl
  · simp [get_memory_usage, get_memory_usageS, loopIteration]

/-- C7: the getters read but never mutate the gauge state: each call
leaves the world unchanged, so between two background publications
repeated calls to `get_cpu_usage()` (resp. `get_memory_usage()`),
in any interleaving, return the same value. -/
theorem c7_reads_stable (w : MonitorWorld) :
    (get_cpu_usageS w).2 = w ∧ (get_memory_usageS w).2 = w ∧
    (get_cpu_usageS ((get_cpu_usageS w).2)).1 = (get_cpu_usageS w).1 ∧
    (get_memory_usageS ((get_memory_usageS w).2)).1 = (get_memory_usageS w).1 ∧
    (get_cpu_usageS ((get_memory_usageS w).2)).1 = (get_cpu_usageS w).1 ∧
    (get_memory_usageS ((get_cpu_usageS w).2)).1 = (get_memory_usageS w).1 := by
  have h1 : (get_cpu_usageS w).2 = w := by
    cases hm : w.monitor <;> simp [get_cpu_usageS, hm]
  have h2 : (get_memory_usageS w).2 = w := by
    cases hm : w.monitor <;> simp [get_memory_usageS, hm]
  exact ⟨h1, h2, by rw [h1], by rw [h2], by rw [h2], by rw [h1]⟩

/-- C8: once the monitor has been initialised, every subsequent call to
`start_system_monitor()` returns the world unchanged: both gauge values
are preserved (never reset to 0), the shared state is not replaced, and
no further task is spawned. -/
theorem c8_restart_is_noop (s : SystemStats) (n : ℕ) :
    start_system_monitor ⟨some s, n⟩ = ⟨some s, n⟩ ∧
    get_cpu_usage (start_system_monitor ⟨some s, n⟩) = get_cpu_usage ⟨some s, n⟩ ∧
    get_memory_usage (start_system_monitor ⟨some s, n⟩) =
      get_memory_usage ⟨some s, n⟩ ∧
    (start_system_monitor ⟨some s, n⟩).spawned = n :=
  ⟨rfl, rfl, rfl, rfl⟩

/-- C9: calling the getters never initialises the monitor: any number
of paired `get_cpu_usage()` / `get_memory_usage()` calls starting from
an un-started world leaves the monitor un-started, and the reads still
return 0.0. -/
theorem c9_getters_never_init (k n : ℕ) :
    (fun w => (get_memory_usageS (get_cpu_usageS w).2).2)^[k] ⟨none, n⟩ =
      (⟨none, n⟩ : MonitorWorld) ∧
    get_cpu_usage
      ((fun w => (get_memory_usageS (get_cpu_usageS w).2).2)^[k] ⟨none, n⟩) = 0 ∧
    get_memory_usage
      ((fun w => (get_memory_usageS (get_cpu_usageS w).2).2)^[k] ⟨none, n⟩) = 0 := by
  have hiter :
      (fun w => (get_memory_usageS (get_cpu_usageS w).2).2)^[k] ⟨none, n⟩ =
        (⟨none, n⟩ : MonitorWorld) :=
    Function.iterate_fixed rfl k
  rw [hiter]
  exact ⟨rfl, rfl, rfl⟩

/-- C1 (counterexample): the claim quantifies over every sequence of
probe readings, but a reading outside the contract of the probe (CPU = 150.0,
used memory 2 with total memory 1) drives both gauges above 10000 after
one started iteration, and both getters above 1.0. -/
theorem c1_counterexample :
    10000 < (loopIteration ⟨.fin 150, 1, 2⟩).cpu_usage ∧
    10000 < (loopIteration ⟨.fin 150, 1, 2⟩).memory_usage ∧
    1 < get_cpu_usage (run [Event.start, Event.tick ⟨.fin 150, 1, 2⟩]) ∧
    1 < get_memory_usage (run [Event.start, Event.tick ⟨.fin 150, 1, 2⟩]) := by
  have hcpu : (loopIteration ⟨.fin 150, 1, 2⟩).cpu_usage = 15000 := by
    rw [loopIteration_cpu]
    show castU32 (.fin ((150 : ℚ) * 100)) = 15000
    rw [show (150 : ℚ) * 100 = ((15000 : ℕ) : ℚ) by push_cast; norm_num]
    exact castU32_natLit 15000 (by norm_num [U32_MAX])
  have hmem : (loopIteration ⟨.fin 150, 1, 2⟩).memory_usage = 20000 := by
    rw [loopIteration_memory]
    show (if (1 : ℕ) > 0 then
        castU32 (.fin (((2 : ℕ) : ℚ) / ((1 : ℕ) : ℚ) * 10000)) else 0) = 20000
    rw [if_pos (by norm_num)]
    rw [show ((2 : ℕ) : ℚ) / ((1 : ℕ) : ℚ) * 10000 = ((20000 : ℕ) : ℚ) by
      push_cast; norm_num]
    exact castU32_natLit 20000 (by norm_num [U32_MAX])
  have hr : run [Event.start, Event.tick ⟨.fin 150, 1, 2⟩] =
      ⟨some (loopIteration ⟨.fin 150, 1, 2⟩), 1⟩ := rfl
  refine ⟨by rw [hcpu]; norm_num, by rw [hmem]; norm_num, ?_, ?_⟩
  · rw [hr, get_cpu_usage_some, hcpu]
    norm_num
  · rw [hr, get_memory_usage_some, hmem]
    norm_num

/-- C1 (amended): for every sequence of events whose probe readings are
within the contract of the probe (finite CPU in [0, 100], used ≤ total) and
every call timing — including before `start` was ever called — the
published gauges stay within [0, 10000] and both getters return values
in [0.0, 1.0]. -/
theorem c1_gauges_in_range (evs : List Event) (hv : ∀ e ∈ evs, ValidEvent e) :
    GaugesOK (run evs) ∧
    0 ≤ get_cpu_usage (run evs) ∧ get_cpu_usage (run evs) ≤ 1 ∧
    0 ≤ get_memory_usage (run evs) ∧ get_memory_usage (run evs) ≤ 1 := by
  have hok : GaugesOK (run evs) :=
    foldl_preserves evs initWorld hv (fun s hs => by simp [initWorld] at hs)
  obtain ⟨hc0, hc1⟩ := get_cpu_usage_of_ok _ hok
  obtain ⟨hm0, hm1⟩ := get_memory_usage_of_ok _ hok
  exact ⟨hok, hc0, hc1, hm0, hm1⟩

/-- Witness for C1 (amended) at the trace
`[start, tick ⟨cpu = 50, total = 8, used = 4⟩]`. -/
theorem c1_gauges_in_range_witness :
    (∀ e ∈ [Event.start, Event.tick ⟨.fin 50, 8, 4⟩], ValidEvent e) ∧
    get_cpu_usage (run [Event.start, Event.tick ⟨.fin 50, 8, 4⟩]) ≤ 1 ∧
    get_memory_usage (run [Event.start, Event.tick ⟨.fin 50, 8, 4⟩]) ≤ 1 := by
  have hv : ∀ e ∈ [Event.start, Event.tick (⟨.fin 50, 8, 4⟩ : ProbeReading)],
      ValidEvent e := by
    intro e he
    simp only [List.mem_cons, List.not_mem_nil, or_false] at he
    rcases he with h | h <;> subst h
    · simp [ValidEvent]
    · refine ⟨⟨by norm_num, by norm_num⟩, by norm_num⟩
  have h := c1_gauges_in_range [Event.start, Event.tick ⟨.fin 50, 8, 4⟩] hv
  exact ⟨hv, h.2.2.1, h.2.2.2.2⟩

/-- C2: for every number n ≥ 1 of (serialised by the one-time
initialisation primitive) calls to `start_system_monitor()`, the gauge
state is constructed exactly once and exactly one background task is
spawned: after n calls the world equals the world after one call, with
spawn count 1; and on any already-initialised world a further call is a
no-op. -/
theorem c2_start_exactly_once (n : ℕ) (h : 1 ≤ n) :
    (start_system_monitor^[n] initWorld).spawned = 1 ∧
    start_system_monitor^[n] initWorld = ⟨some SystemStats.new, 1⟩ ∧
    start_system_monitor^[n] initWorld = start_system_monitor initWorld ∧
    ∀ w : MonitorWorld, w.monitor ≠ none → start_system_monitor w = w := by
  have hfix :
      start_system_monitor (⟨some SystemStats.new, 1⟩ : MonitorWorld) =
        ⟨some SystemStats.new, 1⟩ := rfl
  obtain ⟨m, rfl⟩ := Nat.exists_eq_add_of_le h
  have hiter : start_system_monitor^[1 + m] initWorld =
      (⟨some SystemStats.new, 1⟩ : MonitorWorld) := by
    rw [add_comm, Function.iterate_succ_apply]
    exact Function.iterate_fixed hfix m
  refine ⟨by rw [hiter], hiter, by rw [hiter]; rfl, ?_⟩
  intro w hw
  cases hm : w.monitor with
  | none => exact absurd hm hw
  | some s => simp [start_system_monitor, hm]

/-- Witness for C2 at n = 3. -/
theorem c2_start_exactly_once_witness :
    (start_system_monitor^[3] initWorld).spawned = 1 ∧
    start_system_monitor^[3] initWorld = ⟨some SystemStats.new, 1⟩ := by
  have h := c2_start_exactly_once 3 (by norm_num)
  exact ⟨h.1, h.2.1⟩

/-- C3: for every probe CPU reading c in [0, 100], one loop iteration
publishes the CPU gauge truncate(c·100) (truncation = floor on
non-negative values), so `get_cpu_usage()` afterwards returns that
gauge divided by 10000, always at most 1. -/
theorem c3_cpu_gauge (c : ℚ) (t u n : ℕ) (h0 : 0 ≤ c) (h1 : c ≤ 100) :
    (loopIteration ⟨.fin c, t, u⟩).cpu_usage = ⌊c * 100⌋.toNat ∧
    get_cpu_usage ⟨some (loopIteration ⟨.fin c, t, u⟩), n⟩ =
      (⌊c * 100⌋.toNat : ℚ) / 10000 ∧
    get_cpu_usage ⟨some (loopIteration ⟨.fin c, t, u⟩), n⟩ ≤ 1 := by
  have hcast : castU32 (.fin (c * 100)) = ⌊c * 100⌋.toNat := by
    refine castU32_fin_eq_floor _ (by positivity) ?_
    calc c * 100 ≤ 100 * 100 := by nlinarith
      _ ≤ (U32_MAX : ℚ) := by norm_num [U32_MAX]
  have hcpu : (loopIteration ⟨.fin c, t, u⟩).cpu_usage = ⌊c * 100⌋.toNat := by
    rw [loopIteration_cpu]
    exact hcast
  have hval : get_cpu_usage ⟨some (loopIteration ⟨.fin c, t, u⟩), n⟩ =
      (⌊c * 100⌋.toNat : ℚ) / 10000 := by
    rw [get_cpu_usage_some, hcpu]
  refine ⟨hcpu, hval, ?_⟩
  rw [hval, div_le_one (by norm_num)]
  have hfl : ⌊c * 100⌋ ≤ (10000 : ℤ) := by
    have h := Int.floor_le_floor (show c * 100 ≤ ((10000 : ℕ) : ℚ) by push_cast; nlinarith)
    rwa [Int.floor_natCast] at h
  have hN : ⌊c * 100⌋.toNat ≤ 10000 := Int.toNat_le.mpr hfl
  exact_mod_cast hN

/-- Witness for C3 at the probe readings CPU = 45.67 (gauge 4567, read
back as exactly 4567/10000) and CPU = 100.0 (gauge 10000, read back as
exactly 1). -/
theorem c3_cpu_gauge_witness :
    get_cpu_usage ⟨some (loopIteration ⟨.fin (4567 / 100), 8, 4⟩), 1⟩ = 4567 / 10000 ∧
    get_cpu_usage ⟨some (loopIteration ⟨.fin 100, 8, 4⟩), 1⟩ = 1 := by
  constructor
  · have h := c3_cpu_gauge (4567 / 100) 8 4 1 (by norm_num) (by norm_num)
    rw [h.2.1]
    have he : (4567 : ℚ) / 100 * 100 = ((4567 : ℕ) : ℚ) := by push_cast; ring
    rw [he, Int.floor_natCast, Int.toNat_natCast]
    norm_num
  · have h := c3_cpu_gauge 100 8 4 1 (by norm_num) (by norm_num)
    rw [h.2.1]
    have he : (100 : ℚ) * 100 = ((10000 : ℕ) : ℚ) := by push_cast; ring
    rw [he, Int.floor_natCast, Int.toNat_natCast]
    norm_num

/-- C4 (counterexample): the claim quantifies over every used-memory
value, but at total = 1 and used = u64::MAX the exact value
floor(u/t·10000) overflows `u32`, and the published gauge is the
saturated 4294967295, not that floor. -/
theorem c4_counterexample :
    (loopIteration ⟨.fin 0, 1, 18446744073709551615⟩).memory_usage = 4294967295 ∧
    (4294967295 : ℤ) ≠ ⌊(18446744073709551615 : ℚ) / 1 * 10000⌋ := by
  constructor
  · rw [loopIteration_memory]
    show (if (1 : ℕ) > 0 then
        castU32 (.fin (((18446744073709551615 : ℕ) : ℚ) / ((1 : ℕ) : ℚ) * 10000))
      else 0) = 4294967295
    rw [if_pos (by norm_num)]
    rw [show ((18446744073709551615 : ℕ) : ℚ) / ((1 : ℕ) : ℚ) * 10000 =
        ((184467440737095516150000 : ℕ) : ℚ) by push_cast; norm_num]
    exact castU32_natLit_sat _ (by norm_num [U32_MAX])
  · rw [show (18446744073709551615 : ℚ) / 1 * 10000 =
        ((184467440737095516150000 : ℕ) : ℚ) by push_cast; norm_num]
    rw [Int.floor_natCast]
    norm_num

/-- C4 (amended): for every probe reading with total memory t > 0 and
used memory u whose scaled ratio does not overflow `u32`
(u·10000 ≤ u32::MAX·t — every u ≤ t qualifies), one loop iteration
publishes the memory gauge floor(u/t·10000), and `get_memory_usage()`
afterwards returns that gauge divided by 10000. -/
theorem c4_memory_gauge (c : FVal) (t u n : ℕ) (ht : 0 < t)
    (hb : u * 10000 ≤ U32_MAX * t) :
    (loopIteration ⟨c, t, u⟩).memory_usage = ⌊(u : ℚ) / t * 10000⌋.toNat ∧
    get_memory_usage ⟨some (loopIteration ⟨c, t, u⟩), n⟩ =
      (⌊(u : ℚ) / t * 10000⌋.toNat : ℚ) / 10000 := by
  have ht' : (0 : ℚ) < (t : ℚ) := by exact_mod_cast ht
  have hmem : (loopIteration ⟨c, t, u⟩).memory_usage =
      ⌊(u : ℚ) / t * 10000⌋.toNat := by
    rw [loopIteration_memory]
    simp only [ht, if_pos]
    refine castU32_fin_eq_floor _ (by positivity) ?_
    rw [div_mul_eq_mul_div, div_le_iff₀ ht']
    calc (u : ℚ) * 10000 = ((u * 10000 : ℕ) : ℚ) := by push_cast; ring
      _ ≤ ((U32_MAX * t : ℕ) : ℚ) := by exact_mod_cast hb
      _ = (U32_MAX : ℚ) * t := by push_cast; ring
  refine ⟨hmem, ?_⟩
  rw [get_memory_usage_some, hmem]

/-- Witness for C4 (amended) at total = 8 000 000 000 and
used = 4 000 000 000: the gauge is 5000 and the getter returns exactly
one half. -/
theorem c4_memory_gauge_witness :
    (loopIteration ⟨.fin 0, 8000000000, 4000000000⟩).memory_usage = 5000 ∧
    get_memory_usage
      ⟨some (loopIteration ⟨.fin 0, 8000000000, 4000000000⟩), 1⟩ = 1 / 2 := by
  have h := c4_memory_gauge (.fin 0) 8000000000 4000000000 1 (by norm_num)
    (by norm_num [U32_MAX])
  have he : ((4000000000 : ℕ) : ℚ) / ((8000000000 : ℕ) : ℚ) * 10000 =
      ((5000 : ℕ) : ℚ) := by push_cast; norm_num
  constructor
  · rw [h.1, he, Int.floor_natCast, Int.toNat_natCast]
  · rw [h.2, he, Int.floor_natCast, Int.toNat_natCast]
    norm_num

/-- C10: the float-to-integer gauge conversion is total and saturating
for every possible probe value: NaN and negative inputs encode to 0,
an input at or above u32::MAX saturates at 4294967295, the output never
exceeds 4294967295, and the CPU gauge of the loop is exactly this conversion
applied to the scaled probe value. -/
theorem c10_cast_total_saturating (q : ℚ) :
    castU32 .nan = 0 ∧
    (q < 0 → castU32 (.fin q) = 0) ∧
    ((U32_MAX : ℚ) ≤ q → castU32 (.fin q) = U32_MAX) ∧
    (∀ v : FVal, castU32 v ≤ U32_MAX) ∧
    (∀ r : ProbeReading, (loopIteration r).cpu_usage = castU32 r.cpu.mul100) := by
  refine ⟨rfl, fun hneg => by simp [castU32, hneg], fun hbig => ?_,
    castU32_le_max, fun r => loopIteration_cpu r⟩
  have h0 : ¬ q < 0 := not_lt.mpr (le_trans (by norm_num [U32_MAX]) hbig)
  have hfl : (U32_MAX : ℤ) ≤ ⌊q⌋ := Int.le_floor.mpr (by exact_mod_cast hbig)
  have hge : U32_MAX ≤ ⌊q⌋.toNat := by
    omega
  simp [castU32, h0, Nat.min_eq_right hge]

/-- Witness for C10 at −1 (goes to 0) and 5 000 000 000 (saturates). -/
theorem c10_cast_total_saturating_witness :
    castU32 (.fin (-1)) = 0 ∧ castU32 (.fin 5000000000) = U32_MAX := by
  exact ⟨(c10_cast_total_saturating (-1)).2.1 (by norm_num),
    (c10_cast_total_saturating 5000000000).2.2.1 (by norm_num [U32_MAX])⟩

end SystemMonitor
